import Mathlib

/-!
Shallow embedding of the light-client call executor
(`src/client/light/src/call_executor.rs`): the gated `GenesisCallExecutor`,
`prove_execution` and `check_execution_proof`, together with the contracts of
the external trie/proof collaborators as the specification states them.
-/

set_option autoImplicit false

namespace LightCallExecutor

/-- Raw bytes (`Vec<u8>` / `&[u8]`). -/
abbrev Bytes := List Nat

/-- Storage key. -/
abbrev Key := Bytes

/-- Storage value. -/
abbrev Value := Bytes

/-- Block identifier (`BlockId<Block>`), opaque here. -/
abbrev BlockId := Nat

/-- Method name (`&str`). -/
abbrev Method := String

/-- A trie state root (`H::Out`), opaque commitment value. -/
abbrev Root := Nat

/-- Modelled from the spec: a full state backend's readable key/value content,
as an association list; `lookupState` is the read contract both backend
variants expose. -/
abbrev FullState := List (Key × Value)

/-- First-match association-list lookup: the read operation of a state
backend. -/
def lookupState : FullState → Key → Option Value
  | [], _ => none
  | (k', v) :: rest, k => if k' = k then some v else lookupState rest k

/-- `sp_externalities::Extensions`, opaque here (only passed through). -/
abbrev Extensions := Nat

/-- `OverlayedChanges`: transient write buffer, passed through by this core. -/
abbrev OverlayedChanges := FullState

/-- The caller-supplied native-call closure (`Option<NC>`'s payload), opaque. -/
abbrev NativeCall := Nat

/-- `ProofRecorder<Block>`, opaque here (only passed through). -/
abbrev ProofRecorder := Nat

/-- `sc_executor::RuntimeVersion`, opaque here (only passed through). -/
abbrev RuntimeVersion := Nat

/-- `sc_executor::NativeVersion`, opaque here. -/
abbrev NativeVersion := Nat

/-- Modelled from the spec (error kinds of §7): this core's error type
(`sp_blockchain::Error`), with the distinct kinds the spec names. -/
inductive ClientError where
  /-- Requested block's full state is not locally held. -/
  | NotAvailableOnLightClient
  /-- The underlying call itself failed; payload carries the original message. -/
  | Execution (msg : String)
  /-- Backend passed to proof generation cannot expose a trie view. -/
  | UnableToGenerateProof
  /-- Proof-restricted backend lacks the runtime code needed for the call. -/
  | RuntimeCodeMissing
  /-- Proof-reconstruction failure: malformed proof or root mismatch. -/
  | InvalidProof
deriving DecidableEq, Repr

/-- `ExecutionStrategy`: caller-requested execution strategy (forwarded,
never inspected, by this core). -/
inductive ExecutionStrategy where
  | NativeWhenPossible
  | AlwaysWasm
  | NativeElseWasm
  | Both
deriving DecidableEq, Repr

/-- `ExecutionManager<EM>`: execution-manager policy passed to
`contextual_call` (payload of `Both` elided: it is never called here). -/
inductive ExecutionManager where
  | NativeWhenPossible
  | NativeElseWasm
  | AlwaysWasm
  | Both
deriving DecidableEq, Repr

/-- The Local Executor's own error type (`Local::Error`); `msg` stands for
the message its `to_string()` produces. -/
structure LocalError where
  msg : String
deriving DecidableEq, Repr

/-- The state-availability oracle side of `RemoteBackend<Block>`. -/
structure LightBackend where
  is_local_state_available : BlockId → Bool

/-- The Local Executor (external collaborator): the `CallExecutor<Block>`
operations the gated executor delegates to.  `Cache` is the storage
transaction cache type (`StorageTransactionCache<Block, B::State>`). -/
structure LocalExecutor (Cache : Type) where
  call : BlockId → Method → Bytes → ExecutionStrategy → Option Extensions →
    Except ClientError Bytes
  contextual_call : BlockId → Method → Bytes → OverlayedChanges →
    Option Cache → ExecutionManager → Option NativeCall →
    Option ProofRecorder → Option Extensions → Except LocalError Bytes
  runtime_version : BlockId → Except ClientError RuntimeVersion

/-- `GenesisCallExecutor<B, L>`: call executor that executes calls only on
locally available (genesis) state, wrapping a backend and a local executor. -/
structure GenesisCallExecutor (Cache : Type) where
  backend : LightBackend
  localExec : LocalExecutor Cache

/-- `GenesisCallExecutor::call` (source lines 80-92): delegate to the local
executor when local state is available, otherwise fail with
`NotAvailableOnLightClient`. -/
def GenesisCallExecutor.call {Cache : Type} (x : GenesisCallExecutor Cache)
    (id : BlockId) (method : Method) (call_data : Bytes)
    (strategy : ExecutionStrategy) (extensions : Option Extensions) :
    Except ClientError Bytes :=
  match x.backend.is_local_state_available id with
  | true => x.localExec.call id method call_data strategy extensions
  | false => .error ClientError.NotAvailableOnLightClient

/-- `GenesisCallExecutor::contextual_call` (source lines 94-142): same gate;
when state is local, delegates with the cache argument dropped (`None` is
passed) and the execution manager forced to `NativeWhenPossible`, wrapping any
local-executor error as `Execution(e.to_string())`. -/
def GenesisCallExecutor.contextual_call {Cache : Type}
    (x : GenesisCallExecutor Cache) (at_ : BlockId) (method : Method)
    (call_data : Bytes) (changes : OverlayedChanges) (_cache : Option Cache)
    (_manager : ExecutionManager) (native_call : Option NativeCall)
    (recorder : Option ProofRecorder) (extensions : Option Extensions) :
    Except ClientError Bytes :=
  match x.backend.is_local_state_available at_ with
  | true =>
    (x.localExec.contextual_call at_ method call_data changes none
        ExecutionManager.NativeWhenPossible native_call recorder
        extensions).mapError
      (fun e => ClientError.Execution e.msg)
  | false => .error ClientError.NotAvailableOnLightClient

/-- `GenesisCallExecutor::runtime_version` (source lines 144-149). -/
def GenesisCallExecutor.runtime_version {Cache : Type}
    (x : GenesisCallExecutor Cache) (id : BlockId) :
    Except ClientError RuntimeVersion :=
  match x.backend.is_local_state_available id with
  | true => x.localExec.runtime_version id
  | false => .error ClientError.NotAvailableOnLightClient

/-- A trie-backed state view (`TrieBackend`): a state addressable by its
root. -/
structure TrieBackend where
  root : Root
  state : FullState
deriving DecidableEq, Repr

/-- Modelled from the spec: a `StorageProof` is a self-contained set of
provable key/value bindings (`entries`), chaining to one declared root
(`proof_root`); `wellformed` is false for a malformed proof. -/
structure StorageProof where
  proof_root : Root
  entries : FullState
  wellformed : Bool
deriving DecidableEq, Repr

/-- `GenesisCallExecutor::prove_at_trie_state` (source lines 151-159):
unconditionally fails. -/
def GenesisCallExecutor.prove_at_trie_state {Cache : Type}
    (_x : GenesisCallExecutor Cache) (_state : TrieBackend)
    (_changes : OverlayedChanges) (_method : Method) (_call_data : Bytes) :
    Except ClientError (Bytes × StorageProof) :=
  .error ClientError.NotAvailableOnLightClient

/-- `GenesisCallExecutor::native_runtime_version` (source lines 161-163). -/
def GenesisCallExecutor.native_runtime_version {Cache : Type}
    (_x : GenesisCallExecutor Cache) : Option NativeVersion :=
  none

/-- Modelled from the spec: a runtime call is a deterministic computation
over the state read contract — it either finishes with result bytes, traps
with a message, or reads a key and continues on the read's answer. -/
inductive CallProgram where
  | done (result : Bytes)
  | trap (msg : String)
  | read (key : Key) (cont : Option Value → CallProgram)

/-- Modelled from the spec: the runtime code interpreter (`CodeExecutor`):
given runtime code bytes, a method name and call data, it determines the
call's computation. -/
abbrev CodeExec := Value → Method → Bytes → CallProgram

/-- Modelled from the spec: execute a call against a full state while the
trie layer records every key/value binding read during the traversal
(`TrieView.executeRecordingProof`); reads of absent keys are answered `none`
and produce no recordable binding. -/
def runRecord (s : FullState) : CallProgram → Except String (Bytes × FullState)
  | .done r => .ok (r, [])
  | .trap m => .error m
  | .read k cont =>
    match lookupState s k with
    | some v =>
      match runRecord s (cont (some v)) with
      | .ok (r, touched) => .ok (r, (k, v) :: touched)
      | .error m => .error m
    | none => runRecord s (cont none)

/-- Modelled from the spec: execute a call against a proof-restricted
backend; any state read not covered by the proof fails the read, and the
failure propagates out as an execution error, never a silent default. -/
def runRestricted (entries : FullState) : CallProgram → Except ClientError Bytes
  | .done r => .ok r
  | .trap m => .error (ClientError.Execution m)
  | .read k cont =>
    match lookupState entries k with
    | some v => runRestricted entries (cont (some v))
    | none => .error (ClientError.Execution "read of key not covered by proof")

/-- The execution of a program on state `s` only reads keys present in `s`. -/
def readsPresent (s : FullState) : CallProgram → Bool
  | .done _ => true
  | .trap _ => true
  | .read k cont =>
    match lookupState s k with
    | some v => readsPresent s (cont (some v))
    | none => false

/-- The well-known runtime code storage key (`:code`). -/
def CODE_KEY : Key := [58, 99, 111, 100, 101]

/-- `BackendRuntimeCode::runtime_code`, modelled from the spec: resolve the
runtime code from a backend's readable content (the code is state, provable
like any other key). -/
def runtime_code (backend : FullState) : Option Value :=
  lookupState backend CODE_KEY

/-- `create_proof_check_backend`, modelled from the spec: reconstruct a
proof-restricted backend rooted at `root` from the proof; fails if the proof
is malformed or does not chain to the given root. -/
def create_proof_check_backend (root : Root) (proof : StorageProof) :
    Except ClientError FullState :=
  if proof.wellformed = true ∧ proof.proof_root = root then .ok proof.entries
  else .error ClientError.InvalidProof

/-- `execution_proof_check_on_trie_backend`, modelled from the spec: execute
the call against the proof-restricted backend with the resolved runtime
code, exactly as a full node would, every read checked against the proof. -/
def execution_proof_check_on_trie_backend (trie_backend : FullState)
    (executor : CodeExec) (method : Method) (call_data : Bytes)
    (code : Value) : Except ClientError Bytes :=
  runRestricted trie_backend (executor code method call_data)

/-- `LocalCallExecutor::prove_at_trie_state`, modelled from the spec (§4.2):
on a full node, resolve the runtime code from the trie view, execute the
call recording every binding read, and return the result together with the
accumulated proof (the code binding is itself part of the recorded proof). -/
def local_prove_at_trie_state (executor : CodeExec) (trie_state : TrieBackend)
    (_changes : OverlayedChanges) (method : Method) (call_data : Bytes) :
    Except ClientError (Bytes × StorageProof) :=
  match lookupState trie_state.state CODE_KEY with
  | none => .error (ClientError.Execution "runtime code not found in state")
  | some code =>
    match runRecord trie_state.state (executor code method call_data) with
    | .error m => .error (ClientError.Execution m)
    | .ok (result, touched) =>
      .ok (result,
        { proof_root := trie_state.root,
          entries := (CODE_KEY, code) :: touched,
          wellformed := true })

/-- A state backend as `prove_execution` receives it: it may or may not be
convertible to a trie-backed view (`Backend::as_trie_backend`). -/
structure StateBackendS where
  as_trie_backend : Option TrieBackend

/-- `prove_execution` (source lines 170-191): obtain the trie-backed view
(failing with `UnableToGenerateProof` otherwise), then execute the method
with a default overlay, recording the execution proof; the executor argument
is its `prove_at_trie_state` capability. -/
def prove_execution (state : StateBackendS)
    (prove_at_trie_state : TrieBackend → OverlayedChanges → Method → Bytes →
      Except ClientError (Bytes × StorageProof))
    (method : Method) (call_data : Bytes) :
    Except ClientError (Bytes × StorageProof) :=
  match state.as_trie_backend with
  | none => .error ClientError.UnableToGenerateProof
  | some trie_state =>
    match prove_at_trie_state trie_state [] method call_data with
    | .error e => .error e
    | .ok (result, exec_proof) => .ok (result, exec_proof)

/-- The header of a `RemoteCallRequest`, carrying the trusted state root
(`request.header.state_root()`). -/
structure Header where
  state_root : Root
deriving DecidableEq, Repr

/-- `RemoteCallRequest<Header>`: header reference, method name and call
data. -/
structure RemoteCallRequest where
  header : Header
  method : Method
  call_data : Bytes
deriving DecidableEq, Repr

/-- `check_execution_proof` (source lines 196-232): derive the trusted root
from the request's header, reconstruct the proof-restricted backend, resolve
the runtime code (failing with `RuntimeCodeMissing` if absent), and execute
the method on the restricted backend. -/
def check_execution_proof (executor : CodeExec) (request : RemoteCallRequest)
    (remote_proof : StorageProof) : Except ClientError Bytes :=
  let root : Root := request.header.state_root
  match create_proof_check_backend root remote_proof with
  | .error e => .error e
  | .ok trie_backend =>
    match runtime_code trie_backend with
    | none => .error ClientError.RuntimeCodeMissing
    | some code =>
      execution_proof_check_on_trie_backend trie_backend executor
        request.method request.call_data code

/-- A successful association-list lookup returns a binding of the list. -/
theorem mem_of_lookupState {entries : FullState} {k : Key} {v : Value}
    (h : lookupState entries k = some v) : (k, v) ∈ entries := by
  induction entries with
  | nil => simp [lookupState] at h
  | cons kv rest ih =>
    obtain ⟨k', v'⟩ := kv
    by_cases hk : k' = k
    · rw [lookupState, if_pos hk] at h
      obtain rfl : v' = v := Option.some.inj h
      subst hk
      exact List.mem_cons_self _ _
    · rw [lookupState, if_neg hk] at h
      exact List.mem_cons_of_mem _ (ih h)

/-- A key bound somewhere in the list is found by lookup (with some value). -/
theorem exists_lookupState_of_mem {entries : FullState} {k : Key} {v : Value}
    (h : (k, v) ∈ entries) : ∃ v', lookupState entries k = some v' := by
  induction entries with
  | nil => simp at h
  | cons kv rest ih =>
    obtain ⟨k', v'⟩ := kv
    by_cases hk : k' = k
    · exact ⟨v', by rw [lookupState, if_pos hk]⟩
    · rcases List.mem_cons.mp h with heq | htail
      · exact absurd (congrArg Prod.fst heq).symm hk
      · obtain ⟨v'', hv''⟩ := ih htail
        exact ⟨v'', by rw [lookupState, if_neg hk]; exact hv''⟩

/-- Every binding recorded while executing against a full state is a true
binding of that state. -/
theorem runRecord_sound {s : FullState} {p : CallProgram} {r : Bytes}
    {touched : FullState} (h : runRecord s p = .ok (r, touched)) :
    ∀ k v, (k, v) ∈ touched → lookupState s k = some v := by
  induction p generalizing r touched with
  | done r' =>
    rw [runRecord] at h
    obtain ⟨-, rfl⟩ := Prod.mk.injEq .. ▸ Except.ok.inj h
    intro k v hmem
    simp at hmem
  | trap m => rw [runRecord] at h; exact absurd h (by simp)
  | read key cont ih =>
    rw [runRecord] at h
    split at h
    · next v0 hv =>
      split at h
      · next r' tr' hrec =>
        obtain ⟨-, htr⟩ := Prod.mk.injEq .. ▸ Except.ok.inj h
        intro k v hmem
        rw [← htr] at hmem
        rcases List.mem_cons.mp hmem with heq | htail
        · obtain ⟨hk, hv'⟩ := Prod.mk.injEq .. ▸ heq
          rw [hk, hv']
          exact hv
        · exact ih (some v0) hrec k v htail
      · next m hrec => exact absurd h (by simp)
    · next hv => exact ih none h

/-- Replay: if an execution against full state `s` reads only present keys,
then replaying it against any sound superset of the recorded bindings
succeeds with the same result bytes. -/
theorem runRestricted_replay {s entries : FullState} {p : CallProgram}
    {r : Bytes} {touched : FullState}
    (hreads : readsPresent s p = true)
    (hrun : runRecord s p = .ok (r, touched))
    (hsound : ∀ k v, (k, v) ∈ entries → lookupState s k = some v)
    (hsub : ∀ e, e ∈ touched → e ∈ entries) :
    runRestricted entries p = .ok r := by
  induction p generalizing r touched with
  | done r' =>
    rw [runRecord] at hrun
    obtain ⟨hr, -⟩ := Prod.mk.injEq .. ▸ Except.ok.inj hrun
    rw [runRestricted, hr]
  | trap m => rw [runRecord] at hrun; exact absurd hrun (by simp)
  | read key cont ih =>
    rw [readsPresent] at hreads
    split at hreads
    · next v0 hv =>
      rw [runRecord] at hrun
      split at hrun
      · next v1 hv1 =>
        obtain rfl : v1 = v0 := Option.some.inj (hv1 ▸ hv)
        split at hrun
        · next r' tr' hrec =>
          obtain ⟨hr, htr⟩ := Prod.mk.injEq .. ▸ Except.ok.inj hrun
          have hmem : (key, v1) ∈ entries := by
            refine hsub _ ?_
            rw [← htr]
            exact List.mem_cons_self _ _
          obtain ⟨v', hv'⟩ := exists_lookupState_of_mem hmem
          have hs' : lookupState s key = some v' :=
            hsound _ _ (mem_of_lookupState hv')
          obtain rfl : v' = v1 := Option.some.inj (hs' ▸ hv)
          rw [runRestricted, hv']
          refine ih (some v') hreads (hr ▸ hrec) ?_
          intro e he
          refine hsub e ?_
          rw [← htr]
          exact List.mem_cons_of_mem _ he
        · next m hrec => exact absurd hrun (by simp)
      · next hv1 => exact absurd hv (hv1 ▸ fun h => Option.noConfusion h)
    · next hv => exact absurd hreads (by simp)

/-- C2: for every block whose full state is not locally available, `call`,
`contextual_call` and `runtime_version` of the gated executor return
`NotAvailableOnLightClient` for every method, call data, strategy and
extensions (and for every local executor, which is therefore never
consulted); `prove_at_trie_state` returns `NotAvailableOnLightClient`
unconditionally, for all inputs. -/
theorem fail_closed_gate {Cache : Type} (x : GenesisCallExecutor Cache)
    (id : BlockId) (h : x.backend.is_local_state_available id = false) :
    (∀ (method : Method) (call_data : Bytes) (strategy : ExecutionStrategy)
        (extensions : Option Extensions),
      x.call id method call_data strategy extensions =
        .error ClientError.NotAvailableOnLightClient) ∧
    (∀ (method : Method) (call_data : Bytes) (changes : OverlayedChanges)
        (cache : Option Cache) (manager : ExecutionManager)
        (native_call : Option NativeCall) (recorder : Option ProofRecorder)
        (extensions : Option Extensions),
      x.contextual_call id method call_data changes cache manager native_call
          recorder extensions =
        .error ClientError.NotAvailableOnLightClient) ∧
    (x.runtime_version id = .error ClientError.NotAvailableOnLightClient) ∧
    (∀ (y : GenesisCallExecutor Cache) (state : TrieBackend)
        (changes : OverlayedChanges) (method : Method) (call_data : Bytes),
      y.prove_at_trie_state state changes method call_data =
        .error ClientError.NotAvailableOnLightClient) := by
  refine ⟨?_, ?_, ?_, ?_⟩
  · intro method call_data strategy extensions
    rw [GenesisCallExecutor.call, h]
  · intro method call_data changes cache manager native_call recorder
      extensions
    rw [GenesisCallExecutor.contextual_call, h]
  · rw [GenesisCallExecutor.runtime_version, h]
  · intro y state changes method call_data
    rw [GenesisCallExecutor.prove_at_trie_state]

/-- A concrete local executor used by witnesses. -/
def wLocal : LocalExecutor Nat where
  call := fun _ _ _ _ _ => .ok [1]
  contextual_call := fun _ _ _ _ _ _ _ _ _ => .ok [2]
  runtime_version := fun _ => .ok 7

/-- A concrete gated executor whose oracle reports no local state. -/
def wGceFalse : GenesisCallExecutor Nat :=
  ⟨⟨fun _ => false⟩, wLocal⟩

/-- Witness for C2 at a concrete executor, block and arguments. -/
theorem fail_closed_gate_witness :
    wGceFalse.call 0 "m" [3] ExecutionStrategy.AlwaysWasm none =
      .error ClientError.NotAvailableOnLightClient ∧
    wGceFalse.contextual_call 0 "m" [3] [] (some 9)
        ExecutionManager.AlwaysWasm none none none =
      .error ClientError.NotAvailableOnLightClient ∧
    wGceFalse.runtime_version 0 =
      .error ClientError.NotAvailableOnLightClient :=
  ⟨(fail_closed_gate wGceFalse 0 rfl).1 "m" [3] ExecutionStrategy.AlwaysWasm
      none,
    (fail_closed_gate wGceFalse 0 rfl).2.1 "m" [3] [] (some 9)
      ExecutionManager.AlwaysWasm none none none,
    (fail_closed_gate wGceFalse 0 rfl).2.2.1⟩

/-- C3: for every block whose full state is locally available, `call`
returns exactly the local executor's result with the same arguments
(successes and errors alike, unmodified), and `runtime_version` delegates
identically under the same gate. -/
theorem pass_through_on_available {Cache : Type} (x : GenesisCallExecutor Cache)
    (id : BlockId) (h : x.backend.is_local_state_available id = true) :
    (∀ (method : Method) (call_data : Bytes) (strategy : ExecutionStrategy)
        (extensions : Option Extensions),
      x.call id method call_data strategy extensions =
        x.localExec.call id method call_data strategy extensions) ∧
    x.runtime_version id = x.localExec.runtime_version id := by
  constructor
  · intro method call_data strategy extensions
    rw [GenesisCallExecutor.call, h]
  · rw [GenesisCallExecutor.runtime_version, h]

/-- A concrete local executor that fails, to witness error pass-through. -/
def wLocalErr : LocalExecutor Nat where
  call := fun _ _ _ _ _ => .error (ClientError.Execution "local boom")
  contextual_call := fun _ _ _ _ _ _ _ _ _ => .error ⟨"ctx boom"⟩
  runtime_version := fun _ => .error ClientError.RuntimeCodeMissing

/-- A concrete gated executor whose oracle reports local state available,
over a failing local executor. -/
def wGceTrue : GenesisCallExecutor Nat :=
  ⟨⟨fun _ => true⟩, wLocalErr⟩

/-- Witness for C3: the local executor's own error comes back unchanged. -/
theorem pass_through_on_available_witness :
    wGceTrue.call 5 "m" [3] ExecutionStrategy.Both none =
      .error (ClientError.Execution "local boom") ∧
    wGceTrue.runtime_version 5 = .error ClientError.RuntimeCodeMissing :=
  ⟨(pass_through_on_available wGceTrue 5 rfl).1 "m" [3]
      ExecutionStrategy.Both none,
    (pass_through_on_available wGceTrue 5 rfl).2⟩

/-- C6: when the block's state is locally available, `contextual_call`
invokes the local executor's contextual call with the policy forced to
`NativeWhenPossible`, whatever execution-manager hint the caller supplied;
the hint has no effect on the outcome. -/
theorem contextual_call_forces_native {Cache : Type}
    (x : GenesisCallExecutor Cache) (at_ : BlockId)
    (h : x.backend.is_local_state_available at_ = true) :
    (∀ (method : Method) (call_data : Bytes) (changes : OverlayedChanges)
        (cache : Option Cache) (manager : ExecutionManager)
        (native_call : Option NativeCall) (recorder : Option ProofRecorder)
        (extensions : Option Extensions),
      x.contextual_call at_ method call_data changes cache manager native_call
          recorder extensions =
        (x.localExec.contextual_call at_ method call_data changes none
            ExecutionManager.NativeWhenPossible native_call recorder
            extensions).mapError (fun e => ClientError.Execution e.msg)) ∧
    (∀ (method : Method) (call_data : Bytes) (changes : OverlayedChanges)
        (cache : Option Cache) (m1 m2 : ExecutionManager)
        (native_call : Option NativeCall) (recorder : Option ProofRecorder)
        (extensions : Option Extensions),
      x.contextual_call at_ method call_data changes cache m1 native_call
          recorder extensions =
        x.contextual_call at_ method call_data changes cache m2 native_call
          recorder extensions) := by
  constructor
  · intro method call_data changes cache manager native_call recorder
      extensions
    rw [GenesisCallExecutor.contextual_call, h]
  · intro method call_data changes cache m1 m2 native_call recorder extensions
    rw [GenesisCallExecutor.contextual_call, GenesisCallExecutor.contextual_call]

/-- Witness for C6: two different hints, same delegate outcome. -/
theorem contextual_call_forces_native_witness :
    wGceTrue.contextual_call 5 "m" [3] [] (some 4)
        ExecutionManager.AlwaysWasm none none none =
      .error (ClientError.Execution "ctx boom") ∧
    wGceTrue.contextual_call 5 "m" [3] [] (some 4)
        ExecutionManager.AlwaysWasm none none none =
      wGceTrue.contextual_call 5 "m" [3] [] (some 4) ExecutionManager.Both
        none none none :=
  ⟨(contextual_call_forces_native wGceTrue 5 rfl).1 "m" [3] [] (some 4)
      ExecutionManager.AlwaysWasm none none none,
    (contextual_call_forces_native wGceTrue 5 rfl).2 "m" [3] [] (some 4)
      ExecutionManager.AlwaysWasm ExecutionManager.Both none none none⟩

/-- C9: when state is locally available and the local executor's contextual
call fails with error `e`, the gated `contextual_call` returns an
`Execution` error whose payload is exactly `e`'s message — wrapped once. -/
theorem contextual_call_wraps_local_error {Cache : Type}
    (x : GenesisCallExecutor Cache) (at_ : BlockId) (method : Method)
    (call_data : Bytes) (changes : OverlayedChanges) (cache : Option Cache)
    (manager : ExecutionManager) (native_call : Option NativeCall)
    (recorder : Option ProofRecorder) (extensions : Option Extensions)
    (e : LocalError)
    (h : x.backend.is_local_state_available at_ = true)
    (hlocal : x.localExec.contextual_call at_ method call_data changes none
        ExecutionManager.NativeWhenPossible native_call recorder extensions =
      .error e) :
    x.contextual_call at_ method call_data changes cache manager native_call
        recorder extensions = .error (ClientError.Execution e.msg) := by
  rw [GenesisCallExecutor.contextual_call, h, hlocal]
  rfl

/-- Witness for C9 at a concrete failing local executor. -/
theorem contextual_call_wraps_local_error_witness :
    wGceTrue.contextual_call 5 "m" [3] [] none ExecutionManager.Both none
        none none = .error (ClientError.Execution "ctx boom") :=
  contextual_call_wraps_local_error wGceTrue 5 "m" [3] [] none
    ExecutionManager.Both none none none ⟨"ctx boom"⟩ rfl rfl

/-- C10: the storage-transaction-cache argument of `contextual_call` is
discarded: the outcome is independent of it, and when state is available the
delegate is always invoked with `none` as the cache. -/
theorem contextual_call_ignores_cache {Cache : Type}
    (x : GenesisCallExecutor Cache) (at_ : BlockId) (method : Method)
    (call_data : Bytes) (changes : OverlayedChanges)
    (manager : ExecutionManager) (native_call : Option NativeCall)
    (recorder : Option ProofRecorder) (extensions : Option Extensions) :
    (∀ (c1 c2 : Option Cache),
      x.contextual_call at_ method call_data changes c1 manager native_call
          recorder extensions =
        x.contextual_call at_ method call_data changes c2 manager native_call
          recorder extensions) ∧
    (x.backend.is_local_state_available at_ = true →
      ∀ (c : Option Cache),
        x.contextual_call at_ method call_data changes c manager native_call
            recorder extensions =
          (x.localExec.contextual_call at_ method call_data changes none
              ExecutionManager.NativeWhenPossible native_call recorder
              extensions).mapError (fun e => ClientError.Execution e.msg)) := by
  constructor
  · intro c1 c2
    rw [GenesisCallExecutor.contextual_call, GenesisCallExecutor.contextual_call]
  · intro h c
    rw [GenesisCallExecutor.contextual_call, h]

/-- Witness for C10: a present cache and an absent cache give the same
outcome, and the delegate sees `none`. -/
theorem contextual_call_ignores_cache_witness :
    wGceTrue.contextual_call 5 "m" [3] [] (some 8) ExecutionManager.Both none
        none none =
      wGceTrue.contextual_call 5 "m" [3] [] none ExecutionManager.Both none
        none none ∧
    wGceTrue.contextual_call 5 "m" [3] [] (some 8) ExecutionManager.Both none
        none none =
      (wGceTrue.localExec.contextual_call 5 "m" [3] [] none
          ExecutionManager.NativeWhenPossible none none none).mapError
        (fun e => ClientError.Execution e.msg) :=
  ⟨(contextual_call_ignores_cache wGceTrue 5 "m" [3] []
        ExecutionManager.Both none none none).1 (some 8) none,
    (contextual_call_ignores_cache wGceTrue 5 "m" [3] []
        ExecutionManager.Both none none none).2 rfl (some 8)⟩

/-- A concrete trivial code interpreter for counterexamples/witnesses. -/
def cExec : CodeExec := fun _ _ _ => CallProgram.done []

/-- A concrete verification request with trusted root 0. -/
def cReq : RemoteCallRequest := ⟨⟨0⟩, "m", []⟩

/-- A concrete proof that lacks the runtime code key and chains to root 1,
not to the request's root 0. -/
def cProofNoCode : StorageProof := ⟨1, [], true⟩

/-- C4 counterexample: a proof without the runtime code key whose
verification does not fail with `RuntimeCodeMissing` — the root mismatch is
reported first, as `InvalidProof`. -/
theorem check_missing_code_counterexample :
    lookupState cProofNoCode.entries CODE_KEY = none ∧
    check_execution_proof cExec cReq cProofNoCode =
      .error ClientError.InvalidProof ∧
    ClientError.InvalidProof ≠ ClientError.RuntimeCodeMissing := by
  refine ⟨rfl, ?_, by decide⟩
  rw [check_execution_proof, create_proof_check_backend, if_neg]
  decide

/-- C4 (amended): for every request and proof that reconstructs successfully
against the request's root, if the proof does not include the runtime code
key then `check_execution_proof` fails with `RuntimeCodeMissing`, for every
executor — the execution step is never reached. -/
theorem check_execution_proof_runtime_code_missing (executor : CodeExec)
    (request : RemoteCallRequest) (P : StorageProof)
    (hwf : P.wellformed = true)
    (hroot : P.proof_root = request.header.state_root)
    (hcode : lookupState P.entries CODE_KEY = none) :
    check_execution_proof executor request P =
      .error ClientError.RuntimeCodeMissing := by
  rw [check_execution_proof, create_proof_check_backend, if_pos ⟨hwf, hroot⟩]
  simp only [runtime_code, hcode]

/-- A concrete well-formed proof for the request root, lacking the code key. -/
def cProofNoCodeOkRoot : StorageProof := ⟨0, [([9], [9])], true⟩

/-- Witness for C4's amended statement. -/
theorem check_execution_proof_runtime_code_missing_witness :
    check_execution_proof cExec cReq cProofNoCodeOkRoot =
      .error ClientError.RuntimeCodeMissing :=
  check_execution_proof_runtime_code_missing cExec cReq cProofNoCodeOkRoot
    rfl rfl rfl

/-- C5: if reconstructing the proof-restricted backend fails (malformed
proof, or proof not chaining to the request's root), `check_execution_proof`
fails with the distinct `InvalidProof` error — never the generic `Execution`
kind, and never any result bytes. -/
theorem check_execution_proof_reconstruction_failure (executor : CodeExec)
    (request : RemoteCallRequest) (P : StorageProof)
    (h : ¬(P.wellformed = true ∧ P.proof_root = request.header.state_root)) :
    check_execution_proof executor request P =
      .error ClientError.InvalidProof ∧
    (∀ msg, ClientError.InvalidProof ≠ ClientError.Execution msg) ∧
    (∀ r, check_execution_proof executor request P ≠ .ok r) := by
  have hmain : check_execution_proof executor request P =
      .error ClientError.InvalidProof := by
    rw [check_execution_proof, create_proof_check_backend, if_neg h]
  refine ⟨hmain, fun msg hne => ClientError.noConfusion hne, fun r hok => ?_⟩
  rw [hmain] at hok
  exact Except.noConfusion hok

/-- Witness for C5: verification against a wrong root rejects the proof. -/
theorem check_execution_proof_reconstruction_failure_witness :
    check_execution_proof cExec cReq cProofNoCode =
      .error ClientError.InvalidProof :=
  (check_execution_proof_reconstruction_failure cExec cReq cProofNoCode
      (by decide)).1

/-- C7: verification is deterministic — two invocations of
`check_execution_proof` on identical root, method, call data and proof
produce identical outcomes. -/
theorem check_execution_proof_deterministic (executor : CodeExec)
    (req1 req2 : RemoteCallRequest) (p1 p2 : StorageProof)
    (hroot : req1.header.state_root = req2.header.state_root)
    (hm : req1.method = req2.method)
    (hd : req1.call_data = req2.call_data)
    (hp : p1 = p2) :
    check_execution_proof executor req1 p1 =
      check_execution_proof executor req2 p2 := by
  obtain ⟨⟨r1⟩, m1, d1⟩ := req1
  obtain ⟨⟨r2⟩, m2, d2⟩ := req2
  cases hroot
  cases hm
  cases hd
  cases hp
  rfl

/-- Witness for C7 at concrete, component-wise equal inputs. -/
theorem check_execution_proof_deterministic_witness :
    check_execution_proof cExec ⟨⟨0⟩, "m", []⟩ cProofNoCode =
      check_execution_proof cExec cReq ⟨1, [], true⟩ :=
  check_execution_proof_deterministic cExec ⟨⟨0⟩, "m", []⟩ cReq cProofNoCode
    ⟨1, [], true⟩ rfl rfl rfl rfl

/-- C8: if the backend cannot expose a trie-backed view, `prove_execution`
fails with `UnableToGenerateProof`; and when the underlying proving step
fails, `prove_execution` propagates that error — no partial (result, proof)
pair is ever returned. -/
theorem prove_execution_failure_atomic
    (prover : TrieBackend → OverlayedChanges → Method → Bytes →
      Except ClientError (Bytes × StorageProof))
    (method : Method) (call_data : Bytes) :
    (∀ (s : StateBackendS), s.as_trie_backend = none →
      prove_execution s prover method call_data =
        .error ClientError.UnableToGenerateProof) ∧
    (∀ (s : StateBackendS) (tb : TrieBackend), s.as_trie_backend = some tb →
      ∀ (e : ClientError), prover tb [] method call_data = .error e →
        prove_execution s prover method call_data = .error e) := by
  constructor
  · intro s hs
    rw [prove_execution, hs]
  · intro s tb hs e he
    rw [prove_execution, hs]
    simp only [he]

/-- A concrete prover that always fails, for the C8 witness. -/
def cFailingProver (_tb : TrieBackend) (_changes : OverlayedChanges)
    (_method : Method) (_call_data : Bytes) :
    Except ClientError (Bytes × StorageProof) :=
  .error (ClientError.Execution "prover boom")

/-- Witness for C8: a non-trie backend and a failing prover. -/
theorem prove_execution_failure_atomic_witness :
    prove_execution ⟨none⟩ cFailingProver "m" [] =
      .error ClientError.UnableToGenerateProof ∧
    prove_execution ⟨some ⟨0, []⟩⟩ cFailingProver "m" [] =
      .error (ClientError.Execution "prover boom") :=
  ⟨(prove_execution_failure_atomic cFailingProver "m" []).1 ⟨none⟩ rfl,
    (prove_execution_failure_atomic cFailingProver "m" []).2 ⟨some ⟨0, []⟩⟩
      ⟨0, []⟩ rfl (ClientError.Execution "prover boom") rfl⟩

/-- Evaluation helper: when backend reconstruction succeeds and the runtime
code resolves, `check_execution_proof` is the execution step on the
reconstructed backend. -/
theorem check_execution_proof_run (executor : CodeExec)
    (request : RemoteCallRequest) (proof : StorageProof) (entries : FullState)
    (code : Value)
    (h1 : create_proof_check_backend request.header.state_root proof =
      .ok entries)
    (h2 : runtime_code entries = some code) :
    check_execution_proof executor request proof =
      execution_proof_check_on_trie_backend entries executor request.method
        request.call_data code := by
  rw [check_execution_proof]
  split
  · next e heq => rw [h1] at heq; exact Except.noConfusion heq
  · next tb heq =>
    obtain rfl : tb = entries := Except.ok.inj (heq ▸ h1)
    split
    · next hnone => rw [h2] at hnone; exact Option.noConfusion hnone
    · next c hc =>
      obtain rfl : c = code := Option.some.inj (hc ▸ h2)
      rfl

/-- C1: round-trip — for a backend exposing the full trie-backed state `S`
with root `S.root`, and a (method, call data) whose execution only reads
keys present in `S`, a successful `prove_execution` yielding `(R, P)`
implies that `check_execution_proof` on a request carrying root `S.root`
with the same method, call data and proof `P` succeeds and returns exactly
`R`. -/
theorem prove_check_round_trip (executor : CodeExec) (sb : StateBackendS)
    (S : TrieBackend) (method : Method) (call_data : Bytes) (code : Value)
    (R : Bytes) (P : StorageProof)
    (hsb : sb.as_trie_backend = some S)
    (hcode : lookupState S.state CODE_KEY = some code)
    (hreads : readsPresent S.state (executor code method call_data) = true)
    (hprove : prove_execution sb (local_prove_at_trie_state executor) method
        call_data = .ok (R, P)) :
    check_execution_proof executor ⟨⟨S.root⟩, method, call_data⟩ P =
      .ok R := by
  rw [prove_execution] at hprove
  split at hprove
  · next hnone => rw [hnone] at hsb; exact Option.noConfusion hsb
  · next tb htb =>
    obtain rfl : tb = S := Option.some.inj (htb ▸ hsb)
    split at hprove
    · next e hloc => exact absurd hprove (by simp)
    · next result exec_proof hloc =>
      obtain ⟨hR, hP⟩ := Prod.mk.injEq .. ▸ Except.ok.inj hprove
      rw [local_prove_at_trie_state] at hloc
      split at hloc
      · next hnone => rw [hnone] at hcode; exact Option.noConfusion hcode
      · next code' hc' =>
        obtain rfl : code' = code := Option.some.inj (hc' ▸ hcode)
        split at hloc
        · next m hrec => exact absurd hloc (by simp)
        · next result' touched hrec =>
          obtain ⟨hres, hproof⟩ := Prod.mk.injEq .. ▸ Except.ok.inj hloc
          rw [← hP, ← hproof, ← hR, ← hres]
          have hcreate : create_proof_check_backend
              (RemoteCallRequest.mk ⟨tb.root⟩ method
                call_data).header.state_root
              ⟨tb.root, (CODE_KEY, code') :: touched, true⟩ =
              .ok ((CODE_KEY, code') :: touched) := by
            rw [create_proof_check_backend, if_pos]
            exact ⟨rfl, rfl⟩
          have hcodeEntry :
              runtime_code ((CODE_KEY, code') :: touched) = some code' := by
            rw [runtime_code, lookupState, if_pos rfl]
          rw [check_execution_proof_run executor _ _
            ((CODE_KEY, code') :: touched) code' hcreate hcodeEntry]
          rw [execution_proof_check_on_trie_backend]
          refine runRestricted_replay hreads hrec ?_ ?_
          · intro k v hmem
            rcases List.mem_cons.mp hmem with heq | htail
            · obtain ⟨hk, hv⟩ := Prod.mk.injEq .. ▸ heq
              rw [hk, hv]
              exact hcode
            · exact runRecord_sound hrec k v htail
          · intro e he
            exact List.mem_cons_of_mem _ he

/-- A code interpreter for the C1 witness: read the key given as call data
and return the code bytes followed by the value found. -/
def wExec : CodeExec := fun code _ data =>
  CallProgram.read data (fun v =>
    match v with
    | some v' => CallProgram.done (code ++ v')
    | none => CallProgram.trap "missing key")

/-- Concrete full state for the C1 witness: runtime code `[7]` and one data
key. -/
def wTrie : TrieBackend := ⟨42, [(CODE_KEY, [7]), ([1, 2], [9, 9])]⟩

/-- The proof that `prove_execution` records for the C1 witness run. -/
def wProof : StorageProof := ⟨42, [(CODE_KEY, [7]), ([1, 2], [9, 9])], true⟩

/-- Witness for C1: a concrete prove/check round trip returning the same
bytes. -/
theorem prove_check_round_trip_witness :
    prove_execution ⟨some wTrie⟩ (local_prove_at_trie_state wExec) "m" [1, 2]
        = .ok ([7, 9, 9], wProof) ∧
    check_execution_proof wExec ⟨⟨42⟩, "m", [1, 2]⟩ wProof = .ok [7, 9, 9] :=
  ⟨rfl,
    prove_check_round_trip wExec ⟨some wTrie⟩ wTrie "m" [1, 2] [7] [7, 9, 9]
      wProof rfl rfl rfl rfl⟩

end LightCallExecutor
